import Mathlib

/-!
Shallow embedding of the `iog` logger (fabioricali/iog).

Two variants of the source exist in the repository:
  * `src/unnamed/part_000` — the current variant, with `slim` and `onLog`
    options and the merge `Object.assign({defaults}, opts)`;
  * `src/src/iog.js` — an older variant without `slim`/`onLog`, with the
    merge written `Object.assign(opts, defaults)` (target is the caller's
    object and the defaults are the source).

Pure functions of the source are translated to Lean functions; the
effectful parts of `write`/`pause`/`resume` are modelled as a step
function on an explicit `LogState` (the sequence of console emissions and
file appends).  External primitives (`stringme`'s `stringify`,
`dateformat`, `path.resolve`, Node's `setTimeout`) are modelled
concretely at their interface: JSON serialization over an inductive
`JValue`, date formatting over a `Date` record, and `setTimeout`'s delay
argument in milliseconds, as Node defines it.
-/

namespace Iog

/-- The separator constant of the source: two newlines, 87 dashes, two
newlines. -/
def SEPARATOR : String :=
  "\n\n" ++ String.mk (List.replicate 87 '-') ++ "\n\n"

/-- `DAY_SECONDS` constant of the source. -/
def DAY_SECONDS : Nat := 86400

/-! ## JSON values and serialization (model of `stringme`/`JSON.stringify`) -/

/-- A JSON-like value, the model of a plain JS object/array/primitive
passed to `write`. -/
inductive JValue where
  | null : JValue
  | bool : Bool → JValue
  | num : Int → JValue
  | str : String → JValue
  | arr : List JValue → JValue
  | obj : List (String × JValue) → JValue
deriving Repr

/-- JSON escaping of a single character, as `JSON.stringify` performs it
for the characters that matter here; characters other than the escaped
ones pass through unchanged. -/
def escapeChar (c : Char) : String :=
  if c = '"' then "\\\""
  else if c = '\\' then "\\\\"
  else if c = '\n' then "\\n"
  else if c = '\r' then "\\r"
  else if c = '\t' then "\\t"
  else String.singleton c

/-- Concatenation of a list of strings. -/
def concatAll : List String → String
  | [] => ""
  | s :: rest => s ++ concatAll rest

/-- The decimal digit character for `d < 10`. -/
def digitCh (d : Nat) : Char := Char.ofNat (48 + d)

/-- Decimal digits of a natural number, most significant first. -/
def natDigits (n : Nat) : List Char :=
  if _h : n < 10 then [digitCh n]
  else natDigits (n / 10) ++ [digitCh (n % 10)]
decreasing_by exact Nat.div_lt_self (by omega) (by omega)

/-- Decimal rendering of an integer, the number formatting of the
serialization model. -/
def intRepr : Int → String
  | .ofNat m => String.mk (natDigits m)
  | .negSucc m => "-" ++ String.mk (natDigits (m + 1))

/-- A JSON string literal: quoted, with the escapes of `escapeChar`. -/
def escapeString (s : String) : String :=
  "\"" ++ concatAll (s.data.map escapeChar) ++ "\""

mutual

/-- Compact JSON serialization, the model of `stringify(value)` with no
options (`JSON.stringify(value)`). -/
def serialize : JValue → String
  | .null => "null"
  | .bool b => if b then "true" else "false"
  | .num n => intRepr n
  | .str s => escapeString s
  | .arr xs => "[" ++ serializeItems xs ++ "]"
  | .obj fs => "\x7b" ++ serializeFields fs ++ "\x7d"

/-- Comma-joined serialization of array items. -/
def serializeItems : List JValue → String
  | [] => ""
  | [v] => serialize v
  | v :: rest => serialize v ++ "," ++ serializeItems rest

/-- Comma-joined serialization of object fields, `"key":value`. -/
def serializeFields : List (String × JValue) → String
  | [] => ""
  | [(k, v)] => escapeString k ++ ":" ++ serialize v
  | (k, v) :: rest => escapeString k ++ ":" ++ serialize v ++ "," ++ serializeFields rest

end

/-- Indentation of `n` spaces. -/
def spaces (n : Nat) : String := String.mk (List.replicate n ' ')

mutual

/-- Pretty JSON serialization at an indentation level, the model of
`stringify(value, \x7breplace: null, space: 2\x7d)`, i.e.
`JSON.stringify(value, null, 2)`: 2-space indent, no custom replacer. -/
def serializeP : JValue → Nat → String
  | .null, _ => "null"
  | .bool b, _ => if b then "true" else "false"
  | .num n, _ => intRepr n
  | .str s, _ => escapeString s
  | .arr [], _ => "[]"
  | .arr (x :: xs), i =>
      "[\n" ++ serializePItems (x :: xs) (i + 2) ++ "\n" ++ spaces i ++ "]"
  | .obj [], _ => "\x7b\x7d"
  | .obj (f :: fs), i =>
      "\x7b\n" ++ serializePFields (f :: fs) (i + 2) ++ "\n" ++ spaces i ++ "\x7d"

/-- Pretty-printed array items, one per line at the given indent. -/
def serializePItems : List JValue → Nat → String
  | [], _ => ""
  | [v], i => spaces i ++ serializeP v i
  | v :: rest, i => spaces i ++ serializeP v i ++ ",\n" ++ serializePItems rest i

/-- Pretty-printed object fields, one per line at the given indent. -/
def serializePFields : List (String × JValue) → Nat → String
  | [], _ => ""
  | [(k, v)], i => spaces i ++ escapeString k ++ ": " ++ serializeP v i
  | (k, v) :: rest, i =>
      spaces i ++ escapeString k ++ ": " ++ serializeP v i ++ ",\n" ++ serializePFields rest i

end

/-- The keys of a JSON object (empty for non-objects). -/
def JValue.keys : JValue → List String
  | .obj fs => fs.map Prod.fst
  | _ => []

/-- Field lookup in a JSON object. -/
def JValue.lookupKey (v : JValue) (k : String) : Option JValue :=
  match v with
  | .obj fs => (fs.find? (fun f => f.fst = k)).map Prod.snd
  | _ => none

/-! ## Dates (model of `dateformat`) -/

/-- A wall-clock instant, the model of a JS `Date`. -/
structure Date where
  year : Nat
  month : Nat
  day : Nat
  hour : Nat
  minute : Nat
  second : Nat
  milli : Nat
deriving Repr, DecidableEq

/-- Zero-pad to two digits. -/
def pad2 (n : Nat) : String := if n < 10 then "0" ++ toString n else toString n

/-- Zero-pad to three digits. -/
def pad3 (n : Nat) : String :=
  if n < 10 then "00" ++ toString n else if n < 100 then "0" ++ toString n else toString n

/-- Zero-pad to four digits. -/
def pad4 (n : Nat) : String :=
  if n < 10 then "000" ++ toString n
  else if n < 100 then "00" ++ toString n
  else if n < 1000 then "0" ++ toString n
  else toString n

/-- Model of `dateFormat(now, 'yyyy-mm-dd')`. -/
def formatYMD (d : Date) : String :=
  pad4 d.year ++ "-" ++ pad2 d.month ++ "-" ++ pad2 d.day

/-- Model of `dateFormat(now, 'yyyy-mm-dd HH:MM:ss:l')`. -/
def formatTS (d : Date) : String :=
  formatYMD d ++ " " ++ pad2 d.hour ++ ":" ++ pad2 d.minute ++ ":" ++
    pad2 d.second ++ ":" ++ pad3 d.milli

/-! ## Options and the constructor merge

The caller's `opts` argument is an object that may or may not carry each
documented key: each field is an `Option`.  `Object.assign(target, src)`
copies every own key of `src` onto `target`, so on this fixed key set the
result holds `src`'s value wherever `src` has the key and `target`'s
value elsewhere. -/

/-- A (possibly partial) options object for the `part_000` variant:
`none` means the caller omitted the key.  `onLog` records whether the
value supplied for the key is a function. -/
structure PartialOpts where
  path : Option String := none
  logExt : Option String := none
  separator : Option String := none
  console : Option Bool := none
  rotation : Option Bool := none
  deleteAge : Option Nat := none
  slim : Option Bool := none
  onLog : Option Bool := none
deriving Repr, DecidableEq

/-- `Object.assign(target, src)` on the `part_000` option key set. -/
def objectAssign (target src : PartialOpts) : PartialOpts where
  path := src.path <|> target.path
  logExt := src.logExt <|> target.logExt
  separator := src.separator <|> target.separator
  console := src.console <|> target.console
  rotation := src.rotation <|> target.rotation
  deleteAge := src.deleteAge <|> target.deleteAge
  slim := src.slim <|> target.slim
  onLog := src.onLog <|> target.onLog

/-- The defaults object literal of the `part_000` constructor
(`\x7bpath: 'logs', logExt: '.log', separator: SEPARATOR, console: true,
rotation: false, deleteAge: 0, slim: false, onLog: null\x7d`); every
documented key is present. -/
def defaultsP : PartialOpts where
  path := some "logs"
  logExt := some ".log"
  separator := some SEPARATOR
  console := some true
  rotation := some false
  deleteAge := some 0
  slim := some false
  onLog := some false

/-- The fully resolved configuration held in `this.opts` after the
merge. -/
structure Config where
  path : String
  logExt : String
  separator : String
  console : Bool
  rotation : Bool
  deleteAge : Nat
  slim : Bool
  onLog : Bool
deriving Repr, DecidableEq

/-- Extraction of a total configuration from a merged options object; the
fallbacks can only fire on a field the merge left absent, which never
happens when the target is `defaultsP`. -/
def toConfig (p : PartialOpts) : Config where
  path := p.path.getD "logs"
  logExt := p.logExt.getD ".log"
  separator := p.separator.getD SEPARATOR
  console := p.console.getD true
  rotation := p.rotation.getD false
  deleteAge := p.deleteAge.getD 0
  slim := p.slim.getD false
  onLog := p.onLog.getD false

/-- The `part_000` merge `Object.assign(\x7bdefaults\x7d, opts)`: the
target is a fresh object holding the defaults and the caller's options
are copied over it. -/
def mergeOpts (o : PartialOpts) : Config := toConfig (objectAssign defaultsP o)

/-- Model of `path.resolve(base, ctx)` joining a base directory with the
context-name segment. -/
def pathResolve (base ctx : String) : String := base ++ "/" ++ ctx

/-- A constructed logger of the `part_000` variant: the context name, the
merged (and, under rotation, path-rewritten) options, the paused flag,
and whether the constructor started the retention sweeper
(`if (this.opts.rotation) \x7b ... if (this.opts.deleteAge) this._clear() \x7d`). -/
structure Logger where
  contextName : String
  opts : Config
  paused : Bool
  sweeperActive : Bool
deriving Repr, DecidableEq

/-- The `part_000` constructor: throws `TypeError('context name is
required')` when `contextName` is `undefined` (modelled as `none`),
otherwise merges the options, scopes the directory under the context
name when rotation is on, and starts the sweeper when rotation is on and
`deleteAge` is truthy. -/
def construct (contextName : Option String) (o : PartialOpts) : Except String Logger :=
  match contextName with
  | none => .error "context name is required"
  | some ctx =>
    let cfg := mergeOpts o
    let cfg' := if cfg.rotation then { cfg with path := pathResolve cfg.path ctx } else cfg
    .ok { contextName := ctx
          opts := cfg'
          paused := false
          sweeperActive := cfg'.rotation && cfg'.deleteAge != 0 }

/-! ## The older `src/src/iog.js` variant

Its option key set lacks `slim`/`onLog`, its default directory is
`"log"`, and its merge is written the other way round:
`this.opts = Object.assign(opts, \x7bdefaults\x7d)` — the target is the
caller's object and the defaults are the source, so the defaults are
written into (and overwrite) the caller's fields, and `this.opts` is the
very object the caller passed.  We model the caller's object as a heap
cell so the in-place mutation and the aliasing are visible. -/

/-- A (possibly partial) options object of the `iog.js` variant. -/
structure PartialOptsJs where
  path : Option String := none
  logExt : Option String := none
  separator : Option String := none
  console : Option Bool := none
  rotation : Option Bool := none
  deleteAge : Option Nat := none
deriving Repr, DecidableEq

/-- `Object.assign(target, src)` on the `iog.js` option key set. -/
def objectAssignJs (target src : PartialOptsJs) : PartialOptsJs where
  path := src.path <|> target.path
  logExt := src.logExt <|> target.logExt
  separator := src.separator <|> target.separator
  console := src.console <|> target.console
  rotation := src.rotation <|> target.rotation
  deleteAge := src.deleteAge <|> target.deleteAge

/-- The defaults object literal of the `iog.js` constructor
(`\x7bpath: 'log', logExt: '.log', separator: SEPARATOR, console: true,
rotation: false, deleteAge: 0\x7d`). -/
def defaultsJs : PartialOptsJs where
  path := some "log"
  logExt := some ".log"
  separator := some SEPARATOR
  console := some true
  rotation := some false
  deleteAge := some 0

/-- A heap of option objects: a reference is a `Nat`. -/
def Store : Type := Nat → PartialOptsJs

/-- Heap update at a reference. -/
def storeSet (st : Store) (r : Nat) (v : PartialOptsJs) : Store :=
  fun r' => if r' = r then v else st r'

/-- A constructed logger of the `iog.js` variant: `optsRef` is the
reference `this.opts` holds — the merge target, i.e. the caller's own
object. -/
structure LoggerJs where
  contextName : String
  optsRef : Nat
deriving Repr, DecidableEq

/-- The `iog.js` constructor on a heap: `this.opts =
Object.assign(opts, \x7bdefaults\x7d)` mutates the caller's object in
place (the result of `Object.assign` is its target), then rewrites
`opts.path` when the merged `rotation` is truthy. -/
def constructJs (st : Store) (ctx : String) (optsRef : Nat) : Store × LoggerJs :=
  let st1 := storeSet st optsRef (objectAssignJs (st optsRef) defaultsJs)
  let merged := st1 optsRef
  let st2 :=
    if merged.rotation.getD false then
      storeSet st1 optsRef { merged with path := some (pathResolve (merged.path.getD "") ctx) }
    else st1
  (st2, { contextName := ctx, optsRef := optsRef })

/-! ## Messages and rendering -/

/-- A value passed to `write`: a plain string, an error-like object
(`isError` is true of it; `name`/`message` are its standard fields), or
a structured non-error value. -/
inductive Msg where
  | str : String → Msg
  | errorLike : String → String → Msg
  | obj : JValue → Msg
deriving Repr

/-- Model of `is-error`'s check. -/
def isError : Msg → Bool
  | .errorLike _ _ => true
  | _ => false

/-- Model of `typeof msg === 'object'`. -/
def isObjectTy : Msg → Bool
  | .str _ => false
  | _ => true

/-- ECMAScript `Error.prototype.toString`, which template interpolation
(`$\x7bmsg\x7d`) invokes on an error-like value: `message` when `name`
is empty, `name` when `message` is empty, otherwise
`name ++ ": " ++ message`. -/
def errorToString (name message : String) : String :=
  if name = "" then message
  else if message = "" then name
  else name ++ ": " ++ message

/-- The text a message contributes to the standard-mode body: a
structured non-error value is first replaced by
`stringify(msg, \x7breplace: null, space: 2\x7d)`; an error-like value
is left alone and stringified by the template interpolation; a string is
itself. -/
def msgDisplay : Msg → String
  | .str s => s
  | .errorLike n m => errorToString n m
  | .obj j => serializeP j 0

/-- The `JValue` a message denotes when stored raw into the slim record
(`body.BODY = msg`): a JS string serializes as a JSON string, and an
error object has no enumerable own properties, so `JSON.stringify` sees
`\x7b\x7d`. -/
def msgToJValue : Msg → JValue
  | .str s => .str s
  | .errorLike _ _ => .obj []
  | .obj j => j

/-- The slim-mode record object
`\x7bCONTEXT, DATE, TYPE, BODY\x7d` built by `write`. -/
def slimRecord (ctx date ty : String) (body : JValue) : JValue :=
  .obj [("CONTEXT", .str ctx), ("DATE", .str date), ("TYPE", .str ty), ("BODY", body)]

/-- The rendered record text of a `write` call in the `part_000`
variant: slim mode serializes the record object and appends a newline;
standard mode fills the multi-line template and appends the
separator. -/
def render (cfg : Config) (ctx : String) (msg : Msg) (ty date : String) : String :=
  if cfg.slim then
    serialize (slimRecord ctx date ty (msgToJValue msg)) ++ "\n"
  else
    "CONTEXT: " ++ ctx ++ "\nDATE: " ++ date ++ "\nTYPE: " ++ ty ++ "\nBODY:\n\n" ++
      msgDisplay msg ++ cfg.separator

/-- The methods the Node `console` object owns, for
`console[type in console ? type : 'log']`. -/
def consoleMethods : List String :=
  ["log", "info", "warn", "error", "trace", "debug", "dir", "table", "group", "assert", "count", "time"]

/-- The console method a write of the given type lands on. -/
def consoleMethod (ty : String) : String :=
  if ty ∈ consoleMethods then ty else "log"

/-- Model of `_filePath`: under rotation the file name is the formatted
current date, otherwise the context name. -/
def filePath (cfg : Config) (ctx : String) (now : Date) : String :=
  let fileName := if cfg.rotation then formatYMD now else ctx
  cfg.path ++ "/" ++ fileName ++ cfg.logExt

/-! ## The write/pause/resume state machine -/

/-- The observable state of a logger: the paused flag and the sequences
of console emissions `(method, text)` and file appends `(path, text)`
performed so far, in order. -/
structure LogState where
  paused : Bool
  consoleOut : List (String × String)
  fileOut : List (String × String)
deriving Repr, DecidableEq

/-- One `write(msg, type, show)` call at wall-clock time `now`: a no-op
when paused; otherwise renders the record, emits it to the console when
`console` is enabled and `show` is true, and appends it to the resolved
file path. -/
def writeStep (ctx : String) (cfg : Config) (st : LogState)
    (msg : Msg) (ty : String) (shw : Bool) (now : Date) : LogState :=
  if st.paused then st
  else
    let date := formatTS now
    let body := render cfg ctx msg ty date
    let st1 :=
      if cfg.console && shw then
        { st with consoleOut := st.consoleOut ++ [(consoleMethod ty, body)] }
      else st
    { st1 with fileOut := st1.fileOut ++ [(filePath cfg ctx now, body)] }

/-- An operation on a logger. -/
inductive Op where
  | pause : Op
  | resume : Op
  | wr : Msg → String → Bool → Date → Op
deriving Repr

/-- Whether an operation is a `write`. -/
def Op.isWrite : Op → Bool
  | .wr _ _ _ _ => true
  | _ => false

/-- One operation: `pause()` sets the flag, `resume()` clears it, `wr`
is `write`. -/
def step (ctx : String) (cfg : Config) (st : LogState) : Op → LogState
  | .pause => { st with paused := true }
  | .resume => { st with paused := false }
  | .wr m t s n => writeStep ctx cfg st m t s n

/-- Run a sequence of operations. -/
def runOps (ctx : String) (cfg : Config) (st : LogState) : List Op → LogState
  | [] => st
  | op :: rest => runOps ctx cfg (step ctx cfg st op) rest

/-! ## The append completion callback -/

/-- What the `fs.appendFile` completion callback of the `part_000`
variant does: `if (err) throw err` — the error becomes an unhandled
fault; otherwise, when `opts.onLog` is a function, it is called with
`(body, type)`. -/
inductive AppendOutcome where
  | fault : String → AppendOutcome
  | callback : String → String → AppendOutcome
  | done : AppendOutcome
deriving Repr, DecidableEq

/-- The completion callback passed to `fs.appendFile`, as a function of
the error it is invoked with. -/
def appendCompletion (onLogConfigured : Bool) (body ty : String)
    (err : Option String) : AppendOutcome :=
  match err with
  | some e => .fault e
  | none => if onLogConfigured then .callback body ty else .done

/-! ## The retention sweeper's schedule -/

/-- The delay argument `_clear` passes to `setTimeout`, which Node
interprets in milliseconds: the constant `DAY_SECONDS`, i.e. `86400`. -/
def clearTimeoutDelayMs : Nat := DAY_SECONDS

/-- The instant (in milliseconds) of the `n`-th sweep run when the
constructor starts the sweeper at `t0`: `_clear` runs immediately and
schedules itself again after `clearTimeoutDelayMs`. -/
def sweepRunTimeMs (t0 : Nat) : Nat → Nat
  | 0 => t0
  | n + 1 => sweepRunTimeMs t0 n + clearTimeoutDelayMs

/-- The file-age cutoff `_clear` passes to `findRemoveSync`, in seconds:
`deleteAge * DAY_SECONDS`. -/
def sweepAgeCutoffSeconds (deleteAge : Nat) : Nat := deleteAge * DAY_SECONDS

/-! ## Helper lemmas: compact serialization emits no newline -/

/-- A string with no newline character. -/
abbrev noNL (s : String) : Prop := '\n' ∉ s.data

theorem noNL_append {a b : String} (ha : noNL a) (hb : noNL b) : noNL (a ++ b) := by
  simp only [noNL, String.data_append, List.mem_append]
  rintro (h | h)
  · exact ha h
  · exact hb h

theorem noNL_escapeChar (c : Char) : noNL (escapeChar c) := by
  unfold escapeChar
  split_ifs with h1 h2 h3 h4 h5
  · decide
  · decide
  · decide
  · decide
  · decide
  · show ('\n' : Char) ∉ [c]
    simp only [List.mem_singleton]
    intro h
    exact h3 h.symm

theorem noNL_concatAll (l : List String) (h : ∀ s ∈ l, noNL s) : noNL (concatAll l) := by
  induction l with
  | nil => decide
  | cons s rest ih =>
    exact noNL_append (h s (List.mem_cons_self _ _))
      (ih (fun t ht => h t (List.mem_cons_of_mem _ ht)))

theorem noNL_escapeString (s : String) : noNL (escapeString s) := by
  refine noNL_append (noNL_append (by decide) ?_) (by decide)
  refine noNL_concatAll _ ?_
  intro t ht
  simp only [List.mem_map] at ht
  obtain ⟨c, _, rfl⟩ := ht
  exact noNL_escapeChar c

theorem digitCh_ne_newline (d : Nat) (h : d < 10) : digitCh d ≠ '\n' := by
  interval_cases d <;> decide

theorem noNL_natDigits (n : Nat) : ∀ c ∈ natDigits n, c ≠ '\n' := by
  induction n using Nat.strong_induction_on with
  | _ n ih =>
    rw [natDigits]
    split
    · intro c hc
      simp only [List.mem_singleton] at hc
      subst hc
      exact digitCh_ne_newline n (by omega)
    · intro c hc
      rcases List.mem_append.mp hc with h | h
      · exact ih (n / 10) (Nat.div_lt_self (by omega) (by omega)) c h
      · simp only [List.mem_singleton] at h
        subst h
        exact digitCh_ne_newline (n % 10) (Nat.mod_lt _ (by omega))

theorem noNL_intRepr (n : Int) : noNL (intRepr n) := by
  cases n with
  | ofNat m =>
    show ('\n' : Char) ∉ natDigits m
    intro h
    exact noNL_natDigits m _ h rfl
  | negSucc m =>
    refine noNL_append (by decide) ?_
    show ('\n' : Char) ∉ natDigits (m + 1)
    intro h
    exact noNL_natDigits (m + 1) _ h rfl

mutual

theorem noNL_serialize (v : JValue) : noNL (serialize v) := by
  cases v with
  | null => rw [serialize]; decide
  | bool b => rw [serialize]; cases b <;> decide
  | num n => rw [serialize]; exact noNL_intRepr n
  | str s => rw [serialize]; exact noNL_escapeString s
  | arr xs =>
    rw [serialize]
    exact noNL_append (noNL_append (by decide) (noNL_serializeItems xs)) (by decide)
  | obj fs =>
    rw [serialize]
    exact noNL_append (noNL_append (by decide) (noNL_serializeFields fs)) (by decide)

theorem noNL_serializeItems (xs : List JValue) : noNL (serializeItems xs) := by
  match xs with
  | [] => rw [serializeItems]; decide
  | [v] =>
    rw [serializeItems]
    exact noNL_serialize v
  | v :: v' :: rest =>
    rw [serializeItems]
    exact noNL_append (noNL_append (noNL_serialize v) (by decide))
      (noNL_serializeItems (v' :: rest))
    simp

theorem noNL_serializeFields (fs : List (String × JValue)) : noNL (serializeFields fs) := by
  match fs with
  | [] => rw [serializeFields]; decide
  | [(k, v)] =>
    rw [serializeFields]
    exact noNL_append (noNL_append (noNL_escapeString k) (by decide)) (noNL_serialize v)
  | (k, v) :: f' :: rest =>
    rw [serializeFields]
    exact noNL_append
      (noNL_append (noNL_append (noNL_append (noNL_escapeString k) (by decide))
        (noNL_serialize v)) (by decide))
      (noNL_serializeFields (f' :: rest))
    simp

end

/-! ## Helper lemmas: operation sequences -/

theorem getD_orElse_some {α : Type} (a : Option α) (d : α) : (a <|> some d).getD d = a.getD d := by
  cases a <;> rfl

theorem serialize_obj_eq (fs : List (String × JValue)) :
    serialize (.obj fs) = "\x7b" ++ serializeFields fs ++ "\x7d" := by
  rw [serialize]

theorem serialize_str_eq (t : String) : serialize (.str t) = escapeString t := by
  rw [serialize]

theorem serializeFields_cons₂ (k : String) (v : JValue) (f : String × JValue)
    (rest : List (String × JValue)) :
    serializeFields ((k, v) :: f :: rest)
      = escapeString k ++ ":" ++ serialize v ++ "," ++ serializeFields (f :: rest) := by
  rw [serializeFields]
  simp

theorem runOps_append (ctx : String) (cfg : Config) (st : LogState) (l1 l2 : List Op) :
    runOps ctx cfg st (l1 ++ l2) = runOps ctx cfg (runOps ctx cfg st l1) l2 := by
  induction l1 generalizing st with
  | nil => rfl
  | cons op rest ih =>
    simp only [List.cons_append, runOps]
    exact ih _

theorem runOps_paused (ctx : String) (cfg : Config) (st : LogState) (ops : List Op)
    (hp : st.paused = true) (hw : ∀ op ∈ ops, op.isWrite = true) :
    runOps ctx cfg st ops = st := by
  induction ops with
  | nil => rfl
  | cons op rest ih =>
    have hop := hw op (List.mem_cons_self _ _)
    cases op with
    | pause => simp [Op.isWrite] at hop
    | resume => simp [Op.isWrite] at hop
    | wr m t s n =>
      have hstep : step ctx cfg st (.wr m t s n) = st := by
        simp [step, writeStep, hp]
      rw [runOps, hstep]
      exact ih (fun o ho => hw o (List.mem_cons_of_mem _ ho))

/-- Example configuration with `slim` enabled, for witnesses. -/
def slimCfg : Config where
  path := "logs"
  logExt := ".log"
  separator := SEPARATOR
  console := true
  rotation := false
  deleteAge := 0
  slim := true
  onLog := false

/-- Example standard-mode configuration, for witnesses. -/
def stdCfg : Config where
  path := "logs"
  logExt := ".log"
  separator := SEPARATOR
  console := true
  rotation := false
  deleteAge := 0
  slim := false
  onLog := false

/-- Example initial state, for witnesses. -/
def st0 : LogState where
  paused := false
  consoleOut := []
  fileOut := []

/-- Example date, for witnesses. -/
def d0 : Date where
  year := 2020
  month := 1
  day := 2
  hour := 3
  minute := 4
  second := 5
  milli := 6

/-! ## Claim theorems -/

/-- C8: after `pause()`, any number of `write` calls (any message, type
and show argument) produce zero console output and zero file appends and
leave the state unchanged apart from the paused flag itself; after
`resume()`, subsequent writes behave exactly as from the resumed state,
and nothing written while paused is replayed. -/
theorem pause_blocks_writes_resume_restores (ctx : String) (cfg : Config)
    (st : LogState) (ws ws' : List Op) (hw : ∀ op ∈ ws, op.isWrite = true) :
    runOps ctx cfg st (Op.pause :: ws) = { st with paused := true }
    ∧ runOps ctx cfg st (Op.pause :: ws ++ Op.resume :: ws')
        = runOps ctx cfg { st with paused := false } ws' := by
  have hpauseStep : step ctx cfg st .pause = { st with paused := true } := rfl
  have habsorb : runOps ctx cfg { st with paused := true } ws = { st with paused := true } :=
    runOps_paused ctx cfg _ ws rfl hw
  have h1 : runOps ctx cfg st (Op.pause :: ws) = { st with paused := true } := by
    rw [runOps, hpauseStep, habsorb]
  refine ⟨h1, ?_⟩
  have hsplit : Op.pause :: ws ++ Op.resume :: ws'
      = (Op.pause :: ws) ++ (Op.resume :: ws') := by simp
  rw [hsplit, runOps_append, h1, runOps]
  rfl

/-- Witness for C8 at concrete inputs. -/
theorem pause_blocks_writes_resume_restores_witness :
    (∀ op ∈ [Op.wr (.str "m") "log" true d0], op.isWrite = true)
    ∧ runOps "svc" stdCfg st0 (Op.pause :: [Op.wr (.str "m") "log" true d0])
        = { st0 with paused := true }
    ∧ runOps "svc" stdCfg st0 (Op.pause :: [Op.wr (.str "m") "log" true d0] ++ Op.resume :: [])
        = runOps "svc" stdCfg { st0 with paused := false } [] := by
  refine ⟨?_, ?_⟩
  · intro op hop
    simp only [List.mem_singleton] at hop
    subst hop
    rfl
  · exact pause_blocks_writes_resume_restores "svc" stdCfg st0 _ []
      (by intro op hop; simp only [List.mem_singleton] at hop; subst hop; rfl)

/-- C9: when rotation is disabled the resolved log-file path is
`path/contextName ++ ext`; when rotation is enabled it is
`path/(yyyy-mm-dd of now) ++ ext`; and each unpaused `write` appends to
the path resolved from that very call's current time. -/
theorem file_path_resolution (cfg : Config) (ctx : String) (now : Date)
    (st : LogState) (msg : Msg) (ty : String) (shw : Bool)
    (hp : st.paused = false) :
    (cfg.rotation = false → filePath cfg ctx now = cfg.path ++ "/" ++ ctx ++ cfg.logExt)
    ∧ (cfg.rotation = true →
        filePath cfg ctx now = cfg.path ++ "/" ++ formatYMD now ++ cfg.logExt)
    ∧ (writeStep ctx cfg st msg ty shw now).fileOut
        = st.fileOut ++ [(filePath cfg ctx now, render cfg ctx msg ty (formatTS now))] := by
  refine ⟨?_, ?_, ?_⟩
  · intro h
    simp [filePath, h]
  · intro h
    simp [filePath, h]
  · simp only [writeStep, hp, if_neg Bool.false_ne_true]
    split
    · rfl
    · rfl

/-- Witness for C9 at concrete inputs. -/
theorem file_path_resolution_witness :
    st0.paused = false
    ∧ (stdCfg.rotation = false →
        filePath stdCfg "svc" d0 = stdCfg.path ++ "/" ++ "svc" ++ stdCfg.logExt)
    ∧ (stdCfg.rotation = true →
        filePath stdCfg "svc" d0 = stdCfg.path ++ "/" ++ formatYMD d0 ++ stdCfg.logExt)
    ∧ (writeStep "svc" stdCfg st0 (.str "m") "log" true d0).fileOut
        = st0.fileOut ++ [(filePath stdCfg "svc" d0,
            render stdCfg "svc" (.str "m") "log" (formatTS d0))] :=
  ⟨rfl, file_path_resolution stdCfg "svc" d0 st0 (.str "m") "log" true rfl⟩

/-- C5: the `fs.appendFile` completion callback turns any append error
into an unhandled fault (it is never swallowed), and the `onLog`
callback fires exactly when the append succeeded and a callback is
configured, receiving the rendered text and the type in that order. -/
theorem append_completion_behavior (onLogCfg : Bool) (body ty : String)
    (err : Option String) (e : String) :
    appendCompletion onLogCfg body ty (some e) = .fault e
    ∧ ((∃ b' t', appendCompletion onLogCfg body ty err = .callback b' t')
        ↔ (err = none ∧ onLogCfg = true))
    ∧ (onLogCfg = true → appendCompletion onLogCfg body ty none = .callback body ty) := by
  refine ⟨rfl, ?_, ?_⟩
  · cases err with
    | some e' => cases onLogCfg <;> simp [appendCompletion]
    | none => cases onLogCfg <;> simp [appendCompletion]
  · intro h
    subst h
    rfl

/-- Witness for C5 at concrete inputs. -/
theorem append_completion_behavior_witness :
    appendCompletion true "body" "log" (some "EACCES") = .fault "EACCES"
    ∧ ((∃ b' t', appendCompletion true "body" "log" none = .callback b' t')
        ↔ ((none : Option String) = none ∧ true = true))
    ∧ (true = true → appendCompletion true "body" "log" none = .callback "body" "log") :=
  append_completion_behavior true "body" "log" none "EACCES"

/-- C6: in slim mode a structured non-error message renders as the
serialization of the record object followed by a single newline; the
record's keys are exactly CONTEXT, DATE, TYPE, BODY; the BODY field
holds the input message itself (so its serialized form within the
record is the serialization of the input); and the serialized record
contains no newline, so the output is a single line. -/
theorem slim_record_shape (cfg : Config) (ctx ty date : String) (j : JValue)
    (hslim : cfg.slim = true) :
    render cfg ctx (.obj j) ty date = serialize (slimRecord ctx date ty j) ++ "\n"
    ∧ (slimRecord ctx date ty j).keys = ["CONTEXT", "DATE", "TYPE", "BODY"]
    ∧ (slimRecord ctx date ty j).lookupKey "BODY" = some j
    ∧ noNL (serialize (slimRecord ctx date ty j))
    ∧ (serialize (slimRecord ctx date ty j)).data
        = ("\x7b" ++ escapeString "CONTEXT" ++ ":" ++ escapeString ctx ++ ","
            ++ escapeString "DATE" ++ ":" ++ escapeString date ++ ","
            ++ escapeString "TYPE" ++ ":" ++ escapeString ty ++ ",").data
          ++ (escapeString "BODY" ++ ":" ++ serialize j).data
          ++ ("\x7d" : String).data := by
  refine ⟨?_, rfl, ?_, noNL_serialize _, ?_⟩
  · simp [render, hslim, msgToJValue]
  · simp [slimRecord, JValue.lookupKey, List.find?]
  · simp only [slimRecord, serialize_obj_eq, serializeFields_cons₂]
    rw [serializeFields]
    simp [serialize_str_eq, String.data_append, List.append_assoc]

/-- Witness for C6 at concrete inputs. -/
theorem slim_record_shape_witness :
    slimCfg.slim = true
    ∧ (render slimCfg "svc" (.obj (.num 7)) "log" "2020-01-02"
        = serialize (slimRecord "svc" "2020-01-02" "log" (.num 7)) ++ "\n"
      ∧ (slimRecord "svc" "2020-01-02" "log" (.num 7)).keys
          = ["CONTEXT", "DATE", "TYPE", "BODY"]
      ∧ (slimRecord "svc" "2020-01-02" "log" (.num 7)).lookupKey "BODY" = some (.num 7)
      ∧ noNL (serialize (slimRecord "svc" "2020-01-02" "log" (.num 7)))
      ∧ (serialize (slimRecord "svc" "2020-01-02" "log" (.num 7))).data
          = ("\x7b" ++ escapeString "CONTEXT" ++ ":" ++ escapeString "svc" ++ ","
              ++ escapeString "DATE" ++ ":" ++ escapeString "2020-01-02" ++ ","
              ++ escapeString "TYPE" ++ ":" ++ escapeString "log" ++ ",").data
            ++ (escapeString "BODY" ++ ":" ++ serialize (.num 7)).data
            ++ ("\x7d" : String).data) :=
  ⟨rfl, slim_record_shape slimCfg "svc" "log" "2020-01-02" (.num 7) rfl⟩

/-- C1: in the `part_000` variant every caller-supplied option wins over
the documented default and a default is used exactly when the option is
omitted; but in the `src/src/iog.js` variant the merge is
`Object.assign(opts, defaults)`, whose source is the defaults object, so
a supplied option is overwritten by the default — evaluated here at the
failing input `console: false`, which the merge turns back into
`true`. -/
theorem merge_defaults_semantics (o : PartialOpts) :
    ((mergeOpts o).path = o.path.getD "logs"
      ∧ (mergeOpts o).logExt = o.logExt.getD ".log"
      ∧ (mergeOpts o).separator = o.separator.getD SEPARATOR
      ∧ (mergeOpts o).console = o.console.getD true
      ∧ (mergeOpts o).rotation = o.rotation.getD false
      ∧ (mergeOpts o).deleteAge = o.deleteAge.getD 0
      ∧ (mergeOpts o).slim = o.slim.getD false
      ∧ (mergeOpts o).onLog = o.onLog.getD false)
    ∧ (objectAssignJs { console := some false } defaultsJs).console = some true := by
  refine ⟨⟨?_, ?_, ?_, ?_, ?_, ?_, ?_, ?_⟩, rfl⟩ <;>
    simp [mergeOpts, toConfig, objectAssign, defaultsP, getD_orElse_some]

/-- C10: the `iog.js` constructor's merge target is the caller's own
options object: the logger's `opts` reference is the caller's reference,
the object behind it has every documented default written into its
fields after construction, and no other heap cell is touched. -/
theorem constructJs_mutates_caller_opts (st : Store) (ctx : String) (r r' : Nat)
    (h : r' ≠ r) :
    (constructJs st ctx r).2.optsRef = r
    ∧ ((constructJs st ctx r).1 r).path = some "log"
    ∧ ((constructJs st ctx r).1 r).logExt = some ".log"
    ∧ ((constructJs st ctx r).1 r).separator = some SEPARATOR
    ∧ ((constructJs st ctx r).1 r).console = some true
    ∧ ((constructJs st ctx r).1 r).rotation = some false
    ∧ ((constructJs st ctx r).1 r).deleteAge = some (0 : Nat)
    ∧ (constructJs st ctx r).1 r' = st r' := by
  refine ⟨rfl, ?_, ?_, ?_, ?_, ?_, ?_, ?_⟩ <;>
    simp [constructJs, storeSet, objectAssignJs, defaultsJs, h]

/-- Witness for C10 at concrete inputs. -/
theorem constructJs_mutates_caller_opts_witness :
    (1 : Nat) ≠ 0
    ∧ ((constructJs (fun _ => { console := some false }) "svc" 0).2.optsRef = 0
      ∧ ((constructJs (fun _ => { console := some false }) "svc" 0).1 0).path = some "log"
      ∧ ((constructJs (fun _ => { console := some false }) "svc" 0).1 0).logExt = some ".log"
      ∧ ((constructJs (fun _ => { console := some false }) "svc" 0).1 0).separator
          = some SEPARATOR
      ∧ ((constructJs (fun _ => { console := some false }) "svc" 0).1 0).console = some true
      ∧ ((constructJs (fun _ => { console := some false }) "svc" 0).1 0).rotation = some false
      ∧ ((constructJs (fun _ => { console := some false }) "svc" 0).1 0).deleteAge
          = some (0 : Nat)
      ∧ (constructJs (fun _ => { console := some false }) "svc" 0).1 1
          = { console := some false }) :=
  ⟨by decide,
    constructJs_mutates_caller_opts (fun _ => { console := some false }) "svc" 0 1 (by decide)⟩

/-- C2: the sweeper's first run is at construction time, but each
re-arm delay is the raw constant `86400` handed to `setTimeout`, which
counts milliseconds — not the 86,400 seconds (24 h = 86,400,000 ms) the
specification claims. -/
theorem sweep_schedule_delay (t0 n : Nat) :
    sweepRunTimeMs t0 0 = t0
    ∧ sweepRunTimeMs t0 (n + 1) - sweepRunTimeMs t0 n = 86400
    ∧ clearTimeoutDelayMs = 86400
    ∧ clearTimeoutDelayMs ≠ 86400 * 1000 := by
  refine ⟨rfl, ?_, rfl, by decide⟩
  simp [sweepRunTimeMs, clearTimeoutDelayMs, DAY_SECONDS]

/-- C3 counterexample: constructing with the empty string as context
name succeeds — only an absent (`undefined`) context name is rejected,
so the claim that an empty name fails is refuted. -/
theorem construct_empty_context_succeeds :
    Except.map Logger.contextName (construct (some "") {}) = .ok "" := rfl

/-- C3 amended: construction fails (with the `context name is required`
error, returning no logger) exactly when the context name is absent;
any supplied string, the empty string included, is accepted. -/
theorem construct_fails_iff_absent (o : PartialOpts) (s : String) :
    construct none o = .error "context name is required"
    ∧ ∃ l, construct (some s) o = .ok l :=
  ⟨rfl, ⟨_, rfl⟩⟩

/-- C4 counterexample: with `deleteAge = 3` but rotation disabled the
constructor does not start the retention sweeper, refuting the claim
that `deleteAge > 0` alone keeps a sweeper active. -/
theorem sweeper_not_started_without_rotation :
    Except.map (fun l => (l.opts.deleteAge, l.sweeperActive))
      (construct (some "ctx") { deleteAge := some 3 }) = .ok (3, false) := rfl

/-- C4 amended: after construction the retention sweeper is active
exactly when rotation is enabled and the merged `deleteAge` is
positive. -/
theorem sweeper_active_iff_rotation_and_age (ctx : String) (o : PartialOpts)
    (l : Logger) (h : construct (some ctx) o = .ok l) :
    l.sweeperActive = true ↔ (l.opts.rotation = true ∧ 0 < l.opts.deleteAge) := by
  simp only [construct, Except.ok.injEq] at h
  subst h
  simp only [Bool.and_eq_true, bne_iff_ne, ne_eq]
  constructor
  · rintro ⟨hr, hd⟩
    exact ⟨hr, Nat.pos_of_ne_zero hd⟩
  · rintro ⟨hr, hd⟩
    exact ⟨hr, Nat.pos_iff_ne_zero.mp hd⟩

/-- Example rotation-enabled options, for witnesses. -/
def rotOpts : PartialOpts := { rotation := some true, deleteAge := some 2 }

/-- The logger `construct (some "c") rotOpts` yields, for witnesses. -/
def rotLogger : Logger where
  contextName := "c"
  opts :=
    { path := "logs/c"
      logExt := ".log"
      separator := SEPARATOR
      console := true
      rotation := true
      deleteAge := 2
      slim := false
      onLog := false }
  paused := false
  sweeperActive := true

/-- Witness for C4's amended theorem at concrete inputs. -/
theorem sweeper_active_iff_rotation_and_age_witness :
    construct (some "c") rotOpts = .ok rotLogger
    ∧ (rotLogger.sweeperActive = true
        ↔ (rotLogger.opts.rotation = true ∧ 0 < rotLogger.opts.deleteAge)) :=
  ⟨rfl, sweeper_active_iff_rotation_and_age "c" rotOpts rotLogger rfl⟩

/-- C7 counterexample: for an error-like value with the standard `Error`
name, the text placed in the body is `"Error: boom"`, not the message
property `"boom"` alone — the template interpolation stringifies the
error via `Error.prototype.toString`. -/
theorem error_body_keeps_name_prefix :
    msgDisplay (.errorLike "Error" "boom") = "Error: boom"
    ∧ ("Error: boom" : String) ≠ "boom" :=
  ⟨rfl, by decide⟩

/-- C7 amended: in standard mode an error-like value contributes its
standard display text (`message` if `name` is empty, `name` if `message`
is empty, else `name ++ ": " ++ message`) — never a serialized object
dump — while a structured non-error value contributes its full pretty
serialization with 2-space indent and no replacer. -/
theorem std_mode_body_policy (cfg : Config) (ctx ty date n m : String) (j : JValue)
    (hslim : cfg.slim = false) :
    render cfg ctx (.errorLike n m) ty date
      = "CONTEXT: " ++ ctx ++ "\nDATE: " ++ date ++ "\nTYPE: " ++ ty ++ "\nBODY:\n\n"
          ++ errorToString n m ++ cfg.separator
    ∧ render cfg ctx (.obj j) ty date
      = "CONTEXT: " ++ ctx ++ "\nDATE: " ++ date ++ "\nTYPE: " ++ ty ++ "\nBODY:\n\n"
          ++ serializeP j 0 ++ cfg.separator
    ∧ isError (.errorLike n m) = true
    ∧ isError (.obj j) = false := by
  refine ⟨?_, ?_, rfl, rfl⟩ <;> simp [render, hslim, msgDisplay]

/-- Witness for C7's amended theorem at concrete inputs. -/
theorem std_mode_body_policy_witness :
    stdCfg.slim = false
    ∧ (render stdCfg "svc" (.errorLike "Error" "boom") "error" "d"
        = "CONTEXT: " ++ "svc" ++ "\nDATE: " ++ "d" ++ "\nTYPE: " ++ "error" ++ "\nBODY:\n\n"
            ++ errorToString "Error" "boom" ++ stdCfg.separator
      ∧ render stdCfg "svc" (.obj (.num 7)) "error" "d"
        = "CONTEXT: " ++ "svc" ++ "\nDATE: " ++ "d" ++ "\nTYPE: " ++ "error" ++ "\nBODY:\n\n"
            ++ serializeP (.num 7) 0 ++ stdCfg.separator
      ∧ isError (.errorLike "Error" "boom") = true
      ∧ isError (.obj (.num 7)) = false) :=
  ⟨rfl, std_mode_body_policy stdCfg "svc" "error" "d" "Error" "boom" (.num 7) rfl⟩

end Iog
